import Mathlib

/-!
Verification of the cano-ts pipeline library (HenriqueArtur/cano-ts).

Shallow embedding of:
  - packages/core/src/index.ts   (tagged-state PipeSync, promise-chain Pipe)
  - packages/core/src/pipe.ts    (config-based Pipe / PipeSync that throw PipeError)
  - the error module (PipeError, formatEnhancedErrorMsg)

JavaScript runtime values are modelled by the inductive JSVal below.  Promises
that have settled are modelled by Except (error = rejected, ok = fulfilled);
a thrown exception in synchronous code is likewise an Except.error.
Step functions fn(value, ...args) are modelled with the extra args already
applied, i.e. as functions JSVal → Except JSVal JSVal, paired with the
function's name string (an empty name models an anonymous function).
-/

/-- Model of a JavaScript runtime value.  Numbers are modelled as integers
(no claim under verification involves fractional or NaN arithmetic).
An Error instance is modelled by its message, its optional stack string and
the list of its own enumerable extra fields (standard Error instances keep
message and stack as non-enumerable own properties, modelled separately). -/
inductive JSVal where
  | num : Int → JSVal
  | str : String → JSVal
  | bool : Bool → JSVal
  | null : JSVal
  | undefined : JSVal
  | obj : List (String × JSVal) → JSVal
  | err : String → Option String → List (String × JSVal) → JSVal
deriving Repr

/-- First-occurrence lookup of a key among an object's fields (JS objects keep
at most one property per key; on our list model the first occurrence wins). -/
def lookupField : List (String × JSVal) → String → Option JSVal
  | [], _ => none
  | (k, v) :: rest, key => if k = key then some v else lookupField rest key

/-- JavaScript truthiness of a value (0, "", false, null, undefined are falsy;
objects and Error instances are always truthy). -/
def truthy : JSVal → Bool
  | .num n => n != 0
  | .str s => s != ""
  | .bool b => b
  | .null => false
  | .undefined => false
  | .obj _ => true
  | .err _ _ _ => true

/-- Whether the value is an Error instance (models instanceof Error). -/
def isErrorVal : JSVal → Bool
  | .err _ _ _ => true
  | _ => false

/-- Properties reachable on an Error instance by name without going through
its own enumerable extra fields: lookup on Error.prototype yields name, here
the fixed string that this prototype carries; everything else that the
prototype chain offers (constructor, toString, ...) is a function object,
which is outside the value model and rendered as undefined. -/
def protoGet (key : String) : JSVal :=
  if key = "name" then .str "Error" else .undefined

/-- Property read on an Error instance: own message and stack first (present
as own properties on every constructed Error), then the own enumerable extra
fields, then the prototype chain. -/
def errGet (msg : String) (stk : Option String) (own : List (String × JSVal))
    (key : String) : JSVal :=
  if key = "message" then .str msg
  else if key = "stack" then
    match stk with
    | some s => .str s
    | none => .undefined
  else
    match lookupField own key with
    | some v => v
    | none => protoGet key

/-- Property read v[key] on a JSVal (plain objects: own fields, absent keys
read as undefined; Error instances: errGet; primitives have no modelled
properties). -/
def getProp : JSVal → String → JSVal
  | .obj fields, key => (lookupField fields key).getD .undefined
  | .err m s own, key => errGet m s own key
  | _, _ => .undefined

/-- Models the JS test ("success" in v) used by the index.ts PipeSync
constructor: v is a non-null object and carries a success property.  For an
Error instance the own enumerable fields are searched (the Error prototype
chain has no success property). -/
def hasSuccessProp : JSVal → Bool
  | .obj fields => (lookupField fields "success").isSome
  | .err _ _ own => (lookupField own "success").isSome
  | _ => false

/-- Label recorded for a step: fn.name, with the empty name replaced by
"anonymous" (models fn.name or "anonymous" in the sources). -/
def stepLabel (nm : String) : String :=
  if nm = "" then "anonymous" else nm

/-- A step handed to next(fn, ...args): the function's name together with its
semantics, extra arguments already applied.  A throwing / rejecting call is an
Except.error carrying the thrown value. -/
structure Step where
  nm : String
  fn : JSVal → Except JSVal JSVal

/-! ## Error module: PipeError and formatEnhancedErrorMsg -/

/-- Indexed map over a list starting at a given index, models
list.map((m, i) => f(i, m)) when started at 0; keeping the start index
explicit makes the numbering lemmas below compositional. -/
def mapIdxFrom (base : Nat) (f : Nat → String → String) : List String → List String
  | [] => []
  | x :: rest => f base x :: mapIdxFrom (base + 1) f rest

/-- Replacement of the last array slot, models the JS statement
displayed_history[displayed_history.length - 1] = s.  On an empty array the
JS assignment targets index -1, which creates a stray non-index property that
join ignores, so the observable array is unchanged. -/
def setLastJS : List String → String → List String
  | [], _ => []
  | [_], s => [s]
  | x :: y :: rest, s => x :: setLastJS (y :: rest) s

/-- Numbered chain entry, the string template backtick  NUM. NAME with two
leading spaces used in formatEnhancedErrorMsg. -/
def numberedEntry (pos : Nat) (m : String) : String :=
  "  " ++ toString pos ++ ". " ++ m

/-- Failure entry, the template NUM. ❌ ERROR in "NAME" with two leading
spaces, written over the last displayed slot in formatEnhancedErrorMsg. -/
def failureEntry (pos : Nat) (m : String) : String :=
  "  " ++ toString pos ++ ". ❌ ERROR in \"" ++ m ++ "\""

/-- Translation of formatEnhancedErrorMsg(history) from the error module:
if the history is longer than 3, an omitted-count line ...(n-3) followed by
the last three entries numbered with their original positions, else all
entries numbered from 1; then the last displayed slot is overwritten with the
failure entry built from the last history element (history[length-1], which
on an empty history is the string rendering of undefined and is discarded by
the empty-array assignment). -/
def formatEnhancedErrorMsg (history : List String) : String :=
  let n := history.length
  let displayed : List String :=
    if n > 3 then
      ("  ...(" ++ toString (n - 3) ++ ")") ::
        mapIdxFrom 0 (fun i m => numberedEntry (n - 3 + i + 1) m) (history.drop (n - 3))
    else
      mapIdxFrom 0 (fun i m => numberedEntry (i + 1) m) history
  "🔗 Execution Chain:\n" ++
    String.intercalate "\n"
      (setLastJS displayed (failureEntry n ((history.getLast?).getD "undefined")))

/-- Property names that the in-operator finds on a freshly constructed
PipeError before the copy loop runs: own message and stack (set by the Error
constructor and the stack assignment), and the prototype chain of the
instance (Error.prototype: name, message, constructor, toString;
Object.prototype: the standard methods, the proto accessor, and the four
legacy accessor-management methods defineGetter / defineSetter /
lookupGetter / lookupSetter present in the Node/V8 runtime this library
targets).  A key of original_error that collides with one of these fails the
!(key in this) guard and is not copied. -/
def builtinPropNames : List String :=
  ["message", "stack", "name", "constructor", "toString", "toLocaleString",
   "valueOf", "hasOwnProperty", "isPrototypeOf", "propertyIsEnumerable",
   "__proto__", "__defineGetter__", "__defineSetter__", "__lookupGetter__",
   "__lookupSetter__"]

/-- The copy loop of the PipeError constructor: for key in original_error,
if !(key in this) then this[key] = original_error[key].  The accumulator is
the list of fields copied so far (each copied field becomes an own property
of the wrapper, so a later duplicate key also fails the in-guard). -/
def copyProps : List (String × JSVal) → List (String × JSVal) → List (String × JSVal)
  | [], acc => acc
  | (k, v) :: rest, acc =>
    if k ∈ builtinPropNames then copyProps rest acc
    else if (lookupField acc k).isSome then copyProps rest acc
    else copyProps rest (acc ++ [(k, v)])

/-- Whether if (original_error.stack) takes the branch: the stack is a
non-empty string (undefined and the empty string are falsy). -/
def stackTruthy : Option String → Bool
  | some s => s != ""
  | none => false

/-- Translation of new PipeError(original_error, history).  The constructor
calls super("") (so message is the empty string), rewrites the stack only
when the original is an Error instance with a truthy stack (this.name
resolves to "Error" through Error.prototype, there being no own or prototype
name property on the instance), and runs the copy loop only for Error
originals.  engineStack stands for the stack string the runtime assigned at
construction, which the constructor leaves in place in every other case; it
carries no program information.  The resulting instance is modelled by its
observable Error parts: message, stack and copied own enumerable fields. -/
def mkPipeError (original : JSVal) (history : List String)
    (engineStack : Option String) : JSVal :=
  match original with
  | .err _ stk own =>
    .err ""
      (if stackTruthy stk then
        some ("Error:\n" ++ formatEnhancedErrorMsg history ++
          "\n↓↓↓  ORIGINAL ERROR  ↓↓↓\n" ++ stk.getD "")
      else engineStack)
      (copyProps own [])
  | _ => .err "" engineStack []

/-! ## packages/core/src/index.ts : tagged-state PipeSync and promise Pipe -/

namespace IndexTs

/-- Internal state of the index.ts PipeSync: the discriminated union
PipeSyncResult, success carrying the value or failure carrying the error. -/
inductive SState where
  | success : JSVal → SState
  | failure : JSVal → SState
deriving Repr

/-- A PipeSyncResult record as the JS object it is: success true with a value
field, or success false with an error field.  Used where the source passes a
state record to the PipeSync constructor. -/
def encodeState : SState → JSVal
  | .success v => .obj [("success", .bool true), ("value", v)]
  | .failure e => .obj [("success", .bool false), ("error", e)]

/-- Constructor dispatch of the index.ts PipeSync: a non-null object carrying
a success property is taken to BE the state record (its success field read
for truthiness, its value or error field becoming the payload); every other
value is wrapped as a fresh success state.  Later reads of the state touch
only its success, value and error properties, so interpreting the record
eagerly into SState is faithful. -/
def interpInit (v : JSVal) : SState :=
  if hasSuccessProp v then
    if truthy (getProp v "success") then .success (getProp v "value")
    else .failure (getProp v "error")
  else .success v

/-- The index.ts PipeSync instance: interpreted state plus fnHistory. -/
structure PipeSync where
  state : SState
  fnHistory : List String
deriving Repr

/-- new PipeSync(initialValue, fnHistory) of index.ts. -/
def pipeSyncNew (v : JSVal) (fnHistory : List String) : PipeSync :=
  { state := interpInit v, fnHistory := fnHistory }

/-- pipeSync(value) of index.ts. -/
def pipeSync (v : JSVal) : PipeSync := pipeSyncNew v []

/-- PipeSync.next(fn, ...args) of index.ts: append the step label; in a
failure state hand the existing state record to the new instance without
calling fn; in a success state call fn and build the new instance from its
return value, or from a failure record capturing what it threw. -/
def PipeSync.next (p : PipeSync) (s : Step) : PipeSync :=
  let newHistory := p.fnHistory ++ [stepLabel s.nm]
  match p.state with
  | .failure e => pipeSyncNew (encodeState (.failure e)) newHistory
  | .success v =>
    match s.fn v with
    | .ok u => pipeSyncNew u newHistory
    | .error e => pipeSyncNew (encodeState (.failure e)) newHistory

/-- PipeSync.catch(handler) of index.ts: in a success state return this
unchanged; in a failure state call handler on the stored error and build a
new instance from its return value (history preserved), or from a failure
record capturing what the handler threw (history preserved). -/
def PipeSync.catch (p : PipeSync) (handler : JSVal → Except JSVal JSVal) :
    PipeSync :=
  match p.state with
  | .success _ => p
  | .failure e =>
    match handler e with
    | .ok u => pipeSyncNew u p.fnHistory
    | .error e2 => pipeSyncNew (encodeState (.failure e2)) p.fnHistory

/-- PipeSync.result() of index.ts: the success value, or the stored error
thrown to the caller (modelled as Except.error). -/
def PipeSync.result (p : PipeSync) : Except JSVal JSVal :=
  match p.state with
  | .success v => .ok v
  | .failure e => .error e

/-- The index.ts Pipe instance: the private promise this.value, modelled by
its eventual settlement, plus fnHistory. -/
structure Pipe where
  value : Except JSVal JSVal
  fnHistory : List String
deriving Repr

/-- pipe(value) of index.ts: Promise.resolve of the initial value. -/
def pipe (v : JSVal) : Pipe := { value := .ok v, fnHistory := [] }

/-- Pipe.next(fn, ...args) of index.ts: this.value.then(value => fn(value))
with the step label appended to the history; a rejected this.value skips the
then-callback (fn is not called) and the rejection settles the new value. -/
def Pipe.next (p : Pipe) (s : Step) : Pipe :=
  { value :=
      match p.value with
      | .ok v => s.fn v
      | .error e => .error e
    fnHistory := p.fnHistory ++ [stepLabel s.nm] }

/-- Pipe.catch(handler) of index.ts: this.value.catch(error =>
Promise.resolve(handler(error))); a fulfilled value passes through without
calling the handler, a rejection is replaced by the handler's outcome.
History is passed through unchanged. -/
def Pipe.catch (p : Pipe) (handler : JSVal → Except JSVal JSVal) : Pipe :=
  { value :=
      match p.value with
      | .ok v => .ok v
      | .error e => handler e
    fnHistory := p.fnHistory }

/-- Pipe.result() of index.ts: returns this.value for the caller to await. -/
def Pipe.result (p : Pipe) : Except JSVal JSVal := p.value

end IndexTs

/-! ## packages/core/src/pipe.ts : config-based Pipe and PipeSync -/

namespace PipeTs

/-- setConfig(config?) of pipe.ts: no argument yields usePipeError true;
otherwise config.usePipeError ?? true (absent or nullish field defaults to
true).  The outer Option models an omitted config argument, the inner one an
absent / undefined usePipeError field. -/
def setConfig : Option (Option Bool) → Bool
  | none => true
  | some c => c.getD true

/-- The engine-assigned creation stack of a PipeError is opaque and carries
no program information; the pipeline embeddings instantiate it as absent. -/
def engineStackDefault : Option String := none

/-- The pipe.ts PipeSync instance: plain current value, resolved config
(usePipeError) and fnHistory.  This variant has no failure state. -/
structure PipeSync where
  value : JSVal
  config : Bool
  fnHistory : List String
deriving Repr

/-- pipeSync(value, config?) of pipe.ts. -/
def pipeSync (v : JSVal) (config : Option (Option Bool)) : PipeSync :=
  { value := v, config := setConfig config, fnHistory := [] }

/-- PipeSync.next(fn, ...args) of pipe.ts: call fn on the current value and
return the new instance; if fn throws, the catch block immediately re-throws
from next itself, wrapped in a new PipeError when usePipeError is set, raw
otherwise.  The throw is modelled as Except.error escaping from next. -/
def PipeSync.next (p : PipeSync) (s : Step) : Except JSVal PipeSync :=
  let newHistory := p.fnHistory ++ [stepLabel s.nm]
  match s.fn p.value with
  | .ok u => .ok { value := u, config := p.config, fnHistory := newHistory }
  | .error e =>
    .error (if p.config then mkPipeError e newHistory engineStackDefault else e)

/-- PipeSync.result() of pipe.ts: returns the current value. -/
def PipeSync.result (p : PipeSync) : JSVal := p.value

/-- The pipe.ts Pipe instance: the promise this.value by its settlement,
resolved config and fnHistory. -/
structure Pipe where
  value : Except JSVal JSVal
  config : Bool
  fnHistory : List String
deriving Repr

/-- pipe(value, config?) of pipe.ts. -/
def pipe (v : JSVal) (config : Option (Option Bool)) : Pipe :=
  { value := .ok v, config := setConfig config, fnHistory := [] }

/-- Pipe.next(fn, ...args) of pipe.ts:
this.value.then(value => fn(value)).catch(err => wrap-or-rethrow).
The catch is attached after the then, so it receives BOTH a rejection thrown
by fn at this step and a rejection merely passed through from an earlier
step; in either case, with usePipeError set, it wraps err in a new PipeError
carrying the history including this step's label. -/
def Pipe.next (p : Pipe) (s : Step) : Pipe :=
  let newHistory := p.fnHistory ++ [stepLabel s.nm]
  let afterThen : Except JSVal JSVal :=
    match p.value with
    | .ok v => s.fn v
    | .error e => .error e
  { value :=
      match afterThen with
      | .ok u => .ok u
      | .error e =>
        .error (if p.config then mkPipeError e newHistory engineStackDefault else e)
    config := p.config
    fnHistory := newHistory }

/-- Pipe.result() of pipe.ts: returns this.value for the caller to await. -/
def Pipe.result (p : Pipe) : Except JSVal JSVal := p.value

end PipeTs

/-! ## Spec-side rendering of the trace format (for the refinement claim
about the formatted trace) -/

/-- The claimed shape of the formatted trace, built from the claim's words:
all K entries numbered at their true 1-based positions with entry K marked
as the failure point; when K exceeds 3, an omitted-count marker for the
first K-3 entries followed by the last three entries. -/
def formatTraceSpec (history : List String) : String :=
  let K := history.length
  let full : List String :=
    mapIdxFrom 0
      (fun i m => if i + 1 = K then failureEntry K m else numberedEntry (i + 1) m)
      history
  let shown : List String :=
    if K > 3 then ("  ...(" ++ toString (K - 3) ++ ")") :: full.drop (K - 3)
    else full
  "🔗 Execution Chain:\n" ++ String.intercalate "\n" shown

/-! ## Concrete sample values used by witnesses and counterexamples -/

/-- Projection of the stack of an Error value (observation helper). -/
def stackOf : JSVal → Option String
  | .err _ s _ => s
  | _ => none

/-- Projection of a string value (observation helper). -/
def strOf : JSVal → Option String
  | .str s => some s
  | _ => none

/-- A step named failStep that throws an Error with message boom. -/
def boomError : JSVal := .err "boom" (some "Error: boom") []

/-- Step failStep: always throws boomError. -/
def failStep : Step := { nm := "failStep", fn := fun _ => .error boomError }

/-- Step saveToDB: the identity, never throws. -/
def saveToDB : Step := { nm := "saveToDB", fn := fun v => .ok v }

/-- A step named g that returns 0, never throws. -/
def stepOkZero : Step := { nm := "g", fn := fun _ => .ok (.num 0) }

/-- A step also named g whose body instead throws; used to observe that a
skipped step's body is irrelevant. -/
def stepThrowX : Step := { nm := "g", fn := fun _ => .error (.str "X") }

/-- A step that returns a success-shaped object (an object carrying a
success property); it never throws. -/
def stepMkTagged : Step :=
  { nm := "mk", fn := fun _ => .ok (.obj [("success", .bool true), ("value", .num 1)]) }

/-- An Error subtype instance carrying the extra own enumerable field name
(as a subclass declaring a name class field produces). -/
def customNameError : JSVal :=
  .err "boom" (some "Error: boom") [("name", .str "CustomError")]

/-- Terminal runs of the index.ts pipelines over a list of steps. -/
def IndexTs.runSync (v : JSVal) (steps : List Step) : Except JSVal JSVal :=
  (steps.foldl IndexTs.PipeSync.next (IndexTs.pipeSync v)).result

/-- Terminal run of the index.ts async pipeline over a list of steps
(the settlement of the promise that result() returns). -/
def IndexTs.runAsync (v : JSVal) (steps : List Step) : Except JSVal JSVal :=
  (steps.foldl IndexTs.Pipe.next (IndexTs.pipe v)).result

/-! ## Basic lemmas about the state encoding -/

/-- Reading back an encoded state record restores the state: the constructor
recognizes the record (it carries a success property) and takes its fields. -/
theorem interpInit_encodeState (s : IndexTs.SState) :
    IndexTs.interpInit (IndexTs.encodeState s) = s := by
  cases s <;>
    simp [IndexTs.interpInit, IndexTs.encodeState, hasSuccessProp, lookupField,
      getProp, truthy]

/-- A value with no success property is wrapped as a fresh success state. -/
theorem interpInit_plain (v : JSVal) (hv : hasSuccessProp v = false) :
    IndexTs.interpInit v = .success v := by
  simp [IndexTs.interpInit, hv]

/-! ## Claim C1: short-circuit after failure -/

/-- A chain of next calls on a failed sync pipeline keeps the same failure
and appends exactly the step labels; the step functions do not appear on the
right-hand side, so they are never consulted. -/
theorem syncFold_failure (steps : List Step) :
    ∀ (e : JSVal) (h0 : List String),
    steps.foldl IndexTs.PipeSync.next { state := .failure e, fnHistory := h0 } =
      { state := .failure e,
        fnHistory := h0 ++ steps.map (fun s => stepLabel s.nm) } := by
  induction steps with
  | nil => intro e h0; simp
  | cons s rest ih =>
    intro e h0
    have hstep : IndexTs.PipeSync.next { state := .failure e, fnHistory := h0 } s =
        { state := .failure e, fnHistory := h0 ++ [stepLabel s.nm] } := by
      simp [IndexTs.PipeSync.next, IndexTs.pipeSyncNew, interpInit_encodeState]
    simp only [List.foldl_cons, hstep, ih, List.map_cons]
    simp

/-- A chain of next calls on a rejected async pipeline keeps the rejection
and appends exactly the step labels, never consulting the step functions. -/
theorem asyncFold_failure (steps : List Step) :
    ∀ (e : JSVal) (h0 : List String),
    steps.foldl IndexTs.Pipe.next { value := .error e, fnHistory := h0 } =
      { value := .error e,
        fnHistory := h0 ++ steps.map (fun s => stepLabel s.nm) } := by
  induction steps with
  | nil => intro e h0; simp
  | cons s rest ih =>
    intro e h0
    simp only [List.foldl_cons, IndexTs.Pipe.next, ih, List.map_cons]
    simp

/-- C1: a pipeline already in the Failure state short-circuits: any chain of
subsequent next calls (before any catch) leaves the failure untouched while
appending the step names to the history, and the chain's outcome agrees with
the outcome for any other step functions bearing the same names — i.e. the
skipped functions are never invoked — in both the synchronous and the
asynchronous index.ts variants. -/
theorem C1_failure_short_circuit (e : JSVal) (h0 : List String)
    (steps steps2 : List Step) (hnames : steps.map Step.nm = steps2.map Step.nm) :
    (steps.foldl IndexTs.PipeSync.next { state := .failure e, fnHistory := h0 }).state
        = .failure e
    ∧ (steps.foldl IndexTs.PipeSync.next { state := .failure e, fnHistory := h0 }).fnHistory
        = h0 ++ steps.map (fun s => stepLabel s.nm)
    ∧ steps.foldl IndexTs.PipeSync.next { state := .failure e, fnHistory := h0 }
        = steps2.foldl IndexTs.PipeSync.next { state := .failure e, fnHistory := h0 }
    ∧ (steps.foldl IndexTs.Pipe.next { value := .error e, fnHistory := h0 }).value
        = .error e
    ∧ steps.foldl IndexTs.Pipe.next { value := .error e, fnHistory := h0 }
        = steps2.foldl IndexTs.Pipe.next { value := .error e, fnHistory := h0 } := by
  have hlab : steps.map (fun s => stepLabel s.nm) = steps2.map (fun s => stepLabel s.nm) := by
    have h1 : steps.map (fun s => stepLabel s.nm) = (steps.map Step.nm).map stepLabel := by
      simp [List.map_map]
    have h2 : steps2.map (fun s => stepLabel s.nm) = (steps2.map Step.nm).map stepLabel := by
      simp [List.map_map]
    rw [h1, h2, hnames]
  refine ⟨?_, ?_, ?_, ?_, ?_⟩
  · rw [syncFold_failure]
  · rw [syncFold_failure]
  · rw [syncFold_failure, syncFold_failure, hlab]
  · rw [asyncFold_failure]
  · rw [asyncFold_failure, asyncFold_failure, hlab]

/-- Witness for C1 at a concrete failed pipeline: two steps named g, one
returning 0, the other throwing, produce identical outcomes, and the failure
and history are as stated. -/
theorem C1_witness :
    ([stepOkZero].foldl IndexTs.PipeSync.next
        { state := .failure (.str "E"), fnHistory := ["f"] }).state = .failure (.str "E")
    ∧ ([stepOkZero].foldl IndexTs.PipeSync.next
        { state := .failure (.str "E"), fnHistory := ["f"] }).fnHistory
        = ["f"] ++ [stepOkZero].map (fun s => stepLabel s.nm)
    ∧ [stepOkZero].foldl IndexTs.PipeSync.next
        { state := .failure (.str "E"), fnHistory := ["f"] }
        = [stepThrowX].foldl IndexTs.PipeSync.next
            { state := .failure (.str "E"), fnHistory := ["f"] }
    ∧ ([stepOkZero].foldl IndexTs.Pipe.next
        { value := .error (.str "E"), fnHistory := ["f"] }).value = .error (.str "E")
    ∧ [stepOkZero].foldl IndexTs.Pipe.next
        { value := .error (.str "E"), fnHistory := ["f"] }
        = [stepThrowX].foldl IndexTs.Pipe.next
            { value := .error (.str "E"), fnHistory := ["f"] } :=
  C1_failure_short_circuit (.str "E") ["f"] [stepOkZero] [stepThrowX] rfl

/-! ## Claim C2: catch semantics -/

/-- C2 (amended): catch in the Success state returns the pipeline itself
without consulting the handler; in the Failure(e) state it runs handler(e):
a normal return u yields Success(u) with the history preserved, provided u is
not a non-null object carrying a success property (such a u is reinterpreted
by the constructor as a state record); a throw e2 yields Failure(e2) with the
history preserved.  The asynchronous variant behaves analogously on the
settled value, with no proviso on u. -/
theorem C2_catch_semantics (handler : JSVal → Except JSVal JSVal) :
    (∀ (p : IndexTs.PipeSync) v, p.state = .success v → p.catch handler = p)
    ∧ (∀ (p : IndexTs.PipeSync) e u, p.state = .failure e → handler e = .ok u →
        hasSuccessProp u = false →
        p.catch handler = { state := .success u, fnHistory := p.fnHistory })
    ∧ (∀ (p : IndexTs.PipeSync) e e2, p.state = .failure e → handler e = .error e2 →
        p.catch handler = { state := .failure e2, fnHistory := p.fnHistory })
    ∧ (∀ (q : IndexTs.Pipe) v, q.value = .ok v → q.catch handler = q)
    ∧ (∀ (q : IndexTs.Pipe) e u, q.value = .error e → handler e = .ok u →
        q.catch handler = { value := .ok u, fnHistory := q.fnHistory })
    ∧ (∀ (q : IndexTs.Pipe) e e2, q.value = .error e → handler e = .error e2 →
        q.catch handler = { value := .error e2, fnHistory := q.fnHistory }) := by
  refine ⟨?_, ?_, ?_, ?_, ?_, ?_⟩
  · intro p v hs; simp [IndexTs.PipeSync.catch, hs]
  · intro p e u hs hh hu
    simp [IndexTs.PipeSync.catch, hs, hh, IndexTs.pipeSyncNew, interpInit_plain u hu]
  · intro p e e2 hs hh
    simp [IndexTs.PipeSync.catch, hs, hh, IndexTs.pipeSyncNew, interpInit_encodeState]
  · intro q v hs; cases q; simp_all [IndexTs.Pipe.catch]
  · intro q e u hs hh; cases q; simp_all [IndexTs.Pipe.catch]
  · intro q e e2 hs hh; cases q; simp_all [IndexTs.Pipe.catch]

/-- Witness for C2 at concrete pipelines: a successful sync pipeline passes
through catch unchanged, and a failed one recovers to Success(0). -/
theorem C2_witness :
    IndexTs.PipeSync.catch { state := .success (.num 5), fnHistory := ["f"] }
        (fun _ => .ok (.num 0))
      = { state := .success (.num 5), fnHistory := ["f"] }
    ∧ IndexTs.PipeSync.catch { state := .failure (.str "E"), fnHistory := ["f"] }
        (fun _ => .ok (.num 0))
      = { state := .success (.num 0), fnHistory := ["f"] } :=
  ⟨(C2_catch_semantics (fun _ => .ok (.num 0))).1 _ (.num 5) rfl,
   (C2_catch_semantics (fun _ => .ok (.num 0))).2.1 _ (.str "E") (.num 0) rfl rfl rfl⟩

/-- Counterexample for C2 as stated: a handler that recovers with the
success-shaped object u = {success: false, error: 7} does not produce
Success(u); the constructor reads u as a state record and the pipeline lands
in Failure(7). -/
theorem C2_counterexample :
    IndexTs.PipeSync.catch { state := .failure (.num 1), fnHistory := ["f"] }
        (fun _ => .ok (.obj [("success", .bool false), ("error", .num 7)]))
      = { state := .failure (.num 7), fnHistory := ["f"] }
    ∧ (IndexTs.PipeSync.catch { state := .failure (.num 1), fnHistory := ["f"] }
        (fun _ => .ok (.obj [("success", .bool false), ("error", .num 7)]))).state
      ≠ .success (.obj [("success", .bool false), ("error", .num 7)]) := by
  refine ⟨rfl, fun h => ?_⟩
  have h2 : IndexTs.SState.failure (.num 7)
      = .success (.obj [("success", .bool false), ("error", .num 7)]) := h
  exact IndexTs.SState.noConfusion h2

/-! ## Claim C9: success-shaped values are captured as state records -/

/-- A field value found by lookup is a proper subterm of the field list. -/
theorem sizeOf_lookupField {fs : List (String × JSVal)} {k : String} {w : JSVal}
    (h : lookupField fs k = some w) : sizeOf w < sizeOf fs := by
  induction fs with
  | nil => simp [lookupField] at h
  | cons p rest ih =>
    obtain ⟨k', v'⟩ := p
    by_cases hk : k' = k
    · simp [lookupField, hk] at h
      subst h
      simp [List.cons.sizeOf_spec, Prod.mk.sizeOf_spec]
      omega
    · simp [lookupField, hk] at h
      have := ih h
      simp [List.cons.sizeOf_spec]
      omega

/-- No property read on an object or Error value returns the value itself:
the read yields a strict subterm, a string, or undefined. -/
theorem getProp_ne_self (v : JSVal) (hv : hasSuccessProp v = true) (k : String) :
    getProp v k ≠ v := by
  cases v with
  | num n => simp [hasSuccessProp] at hv
  | str s => simp [hasSuccessProp] at hv
  | bool b => simp [hasSuccessProp] at hv
  | null => simp [hasSuccessProp] at hv
  | undefined => simp [hasSuccessProp] at hv
  | obj fs =>
    simp only [getProp]
    cases hl : lookupField fs k with
    | none => simp
    | some w =>
      simp
      intro h
      have hs := sizeOf_lookupField hl
      rw [h] at hs
      simp [JSVal.obj.sizeOf_spec] at hs
  | err m s own =>
    simp only [getProp, errGet]
    by_cases hm : k = "message"
    · simp [hm]
    · by_cases hst : k = "stack"
      · simp [hm, hst]
        cases s <;> simp
      · simp [hm, hst]
        cases hl : lookupField own k with
        | none =>
          simp [protoGet]
          by_cases hn : k = "name" <;> simp [hn]
        | some w =>
          simp
          intro h
          have hs := sizeOf_lookupField hl
          rw [h] at hs
          simp [JSVal.err.sizeOf_spec] at hs

/-- C9: a non-null object v carrying a success property is read by the
index.ts PipeSync constructor as a state record rather than wrapped as a
value: result() returns the value field when the success field is truthy and
throws the error field otherwise, and in particular never returns v itself;
a catch handler recovering with such a v suffers the same reinterpretation
(the recovered pipeline's state is never Success(v)). -/
theorem C9_success_shaped_value (v : JSVal) (hv : hasSuccessProp v = true) :
    (truthy (getProp v "success") = true →
        (IndexTs.pipeSync v).result = .ok (getProp v "value"))
    ∧ (truthy (getProp v "success") = false →
        (IndexTs.pipeSync v).result = .error (getProp v "error"))
    ∧ (IndexTs.pipeSync v).result ≠ .ok v
    ∧ ∀ (e : JSVal) (hist : List String) (handler : JSVal → Except JSVal JSVal),
        handler e = .ok v →
        (IndexTs.PipeSync.catch { state := .failure e, fnHistory := hist } handler).state
          ≠ .success v := by
  refine ⟨?_, ?_, ?_, ?_⟩
  · intro ht
    simp [IndexTs.pipeSync, IndexTs.pipeSyncNew, IndexTs.interpInit, hv, ht,
      IndexTs.PipeSync.result]
  · intro ht
    simp [IndexTs.pipeSync, IndexTs.pipeSyncNew, IndexTs.interpInit, hv, ht,
      IndexTs.PipeSync.result]
  · cases ht : truthy (getProp v "success") with
    | true =>
      simp [IndexTs.pipeSync, IndexTs.pipeSyncNew, IndexTs.interpInit, hv, ht,
        IndexTs.PipeSync.result]
      exact getProp_ne_self v hv "value"
    | false =>
      simp [IndexTs.pipeSync, IndexTs.pipeSyncNew, IndexTs.interpInit, hv, ht,
        IndexTs.PipeSync.result]
  · intro e hist handler hh
    cases ht : truthy (getProp v "success") with
    | true =>
      simp [IndexTs.PipeSync.catch, hh, IndexTs.pipeSyncNew, IndexTs.interpInit, hv, ht]
      exact getProp_ne_self v hv "value"
    | false =>
      simp [IndexTs.PipeSync.catch, hh, IndexTs.pipeSyncNew, IndexTs.interpInit, hv, ht]

/-- Witness for C9 at v = {success: true, value: 5}: result() returns the
value field, not v. -/
theorem C9_witness :
    (IndexTs.pipeSync (.obj [("success", .bool true), ("value", .num 5)])).result
        = .ok (getProp (.obj [("success", .bool true), ("value", .num 5)]) "value")
    ∧ (IndexTs.pipeSync (.obj [("success", .bool true), ("value", .num 5)])).result
        ≠ .ok (.obj [("success", .bool true), ("value", .num 5)]) :=
  ⟨(C9_success_shaped_value (.obj [("success", .bool true), ("value", .num 5)]) rfl).1 rfl,
   (C9_success_shaped_value (.obj [("success", .bool true), ("value", .num 5)]) rfl).2.2.1⟩

/-! ## Claim C4: sync / async agreement on non-failing runs -/

/-- Lock-step agreement of the two index.ts pipelines from matching success
states, for steps that never throw and never return a success-shaped object. -/
theorem syncAsync_lockstep (steps : List Step) :
    ∀ (v : JSVal) (h1 h2 : List String),
    (∀ s ∈ steps, ∀ w, ∃ u, s.fn w = .ok u ∧ hasSuccessProp u = false) →
    (steps.foldl IndexTs.PipeSync.next { state := .success v, fnHistory := h1 }).result
      = (steps.foldl IndexTs.Pipe.next { value := .ok v, fnHistory := h2 }).result := by
  induction steps with
  | nil =>
    intro v h1 h2 _
    simp [IndexTs.PipeSync.result, IndexTs.Pipe.result]
  | cons s rest ih =>
    intro v h1 h2 hsteps
    obtain ⟨u, hu, hplain⟩ := hsteps s (by simp) v
    have hsync : IndexTs.PipeSync.next { state := .success v, fnHistory := h1 } s
        = { state := .success u, fnHistory := h1 ++ [stepLabel s.nm] } := by
      simp [IndexTs.PipeSync.next, hu, IndexTs.pipeSyncNew, interpInit_plain u hplain]
    have hasync : IndexTs.Pipe.next { value := .ok v, fnHistory := h2 } s
        = { value := .ok u, fnHistory := h2 ++ [stepLabel s.nm] } := by
      simp [IndexTs.Pipe.next, hu]
    simp only [List.foldl_cons, hsync, hasync]
    exact ih u _ _ (fun s' hs' => hsteps s' (by simp [hs']))

/-- C4 (amended): for an initial value that is not a success-shaped object
and a sequence of steps that never throw and never return a success-shaped
object, the synchronous run (pipeSync, chained next, result) and the
asynchronous run (pipe, chained next, awaited result) of index.ts produce
equal final results. -/
theorem C4_sync_async_equiv (v : JSVal) (steps : List Step)
    (hv : hasSuccessProp v = false)
    (hsteps : ∀ s ∈ steps, ∀ w, ∃ u, s.fn w = .ok u ∧ hasSuccessProp u = false) :
    IndexTs.runSync v steps = IndexTs.runAsync v steps := by
  have h0 : IndexTs.pipeSync v = { state := .success v, fnHistory := [] } := by
    simp [IndexTs.pipeSync, IndexTs.pipeSyncNew, interpInit_plain v hv]
  simp only [IndexTs.runSync, IndexTs.runAsync, IndexTs.pipe, h0]
  exact syncAsync_lockstep steps v [] [] hsteps

/-- Witness for C4: a numeric initial value through add-style steps. -/
theorem C4_witness :
    IndexTs.runSync (.num 5) [stepOkZero] = IndexTs.runAsync (.num 5) [stepOkZero] :=
  C4_sync_async_equiv (.num 5) [stepOkZero] rfl
    (by intro s hs w; simp [stepOkZero] at hs; subst hs; exact ⟨.num 0, rfl, rfl⟩)

/-- Counterexample for C4 as stated: a non-failing step returning the
success-shaped object {success: true, value: 1} makes the two variants
disagree — the synchronous constructor unwraps the object into state while
the asynchronous pipeline keeps it as the value. -/
theorem C4_counterexample :
    IndexTs.runSync (.num 0) [stepMkTagged] = .ok (.num 1)
    ∧ IndexTs.runAsync (.num 0) [stepMkTagged]
        = .ok (.obj [("success", .bool true), ("value", .num 1)])
    ∧ IndexTs.runSync (.num 0) [stepMkTagged] ≠ IndexTs.runAsync (.num 0) [stepMkTagged] := by
  refine ⟨rfl, rfl, fun h => ?_⟩
  have h2 : (Except.ok (JSVal.num 1) : Except JSVal JSVal)
      = .ok (.obj [("success", .bool true), ("value", .num 1)]) := h
  simp at h2

/-! ## Claim C3: result semantics and where failures surface -/

/-- C3 (amended): for the tagged-state synchronous pipeline of index.ts,
result() returns the wrapped value on Success(v) and throws the stored error
on Failure(e), and a chain of next calls always returns a pipeline (the
failure is carried in the state, so an unrecovered step failure reaches the
caller only through result()); in the config-based pipe.ts synchronous
variant, by contrast, a step failure is thrown from the chaining call next
itself, wrapped or raw according to the configuration. -/
theorem C3_result_semantics (p : IndexTs.PipeSync) :
    (∀ v, p.state = .success v → p.result = .ok v)
    ∧ (∀ e, p.state = .failure e → p.result = .error e)
    ∧ (∀ (v : JSVal) (steps : List Step) (e : JSVal),
        (steps.foldl IndexTs.PipeSync.next (IndexTs.pipeSync v)).state = .failure e →
        IndexTs.runSync v steps = .error e)
    ∧ (∀ (pc : PipeTs.PipeSync) (s : Step) (e : JSVal), s.fn pc.value = .error e →
        PipeTs.PipeSync.next pc s
          = .error (if pc.config then
              mkPipeError e (pc.fnHistory ++ [stepLabel s.nm]) PipeTs.engineStackDefault
            else e)) := by
  refine ⟨?_, ?_, ?_, ?_⟩
  · intro v hs; simp [IndexTs.PipeSync.result, hs]
  · intro e hs; simp [IndexTs.PipeSync.result, hs]
  · intro v steps e hs
    simp [IndexTs.runSync, IndexTs.PipeSync.result, hs]
  · intro pc s e hf
    simp [PipeTs.PipeSync.next, hf]

/-- Witness for C3: a concrete successful pipeline, a concrete failed one,
a failing chain, and a pipe.ts step failure thrown from next. -/
theorem C3_witness :
    IndexTs.PipeSync.result { state := .success (.num 5), fnHistory := [] } = .ok (.num 5)
    ∧ IndexTs.PipeSync.result { state := .failure (.str "E"), fnHistory := [] }
        = .error (.str "E")
    ∧ IndexTs.runSync (.num 0) [stepThrowX] = .error (.str "X")
    ∧ PipeTs.PipeSync.next (PipeTs.pipeSync (.num 0) none) stepThrowX
        = .error (if (PipeTs.pipeSync (.num 0) none).config then
            mkPipeError (.str "X") ([] ++ [stepLabel stepThrowX.nm]) PipeTs.engineStackDefault
          else (.str "X")) :=
  ⟨(C3_result_semantics { state := .success (.num 5), fnHistory := [] }).1 (.num 5) rfl,
   (C3_result_semantics { state := .failure (.str "E"), fnHistory := [] }).2.1 (.str "E") rfl,
   (C3_result_semantics { state := .success (.num 0), fnHistory := [] }).2.2.1
     (.num 0) [stepThrowX] (.str "X") rfl,
   (C3_result_semantics { state := .success (.num 0), fnHistory := [] }).2.2.2
     (PipeTs.pipeSync (.num 0) none) stepThrowX (.str "X") rfl⟩

/-- Counterexample for C3 as stated: in the pipe.ts synchronous pipeline the
step failure escapes from the chaining call itself — next returns the thrown
PipeError instead of any pipeline — so an unrecovered step failure does not
wait for result(). -/
theorem C3_counterexample :
    PipeTs.PipeSync.next (PipeTs.pipeSync (.num 0) none) failStep
      = .error (mkPipeError boomError ["failStep"] PipeTs.engineStackDefault)
    ∧ (PipeTs.PipeSync.next (PipeTs.pipeSync (.num 0) none) failStep).toOption = none :=
  ⟨rfl, rfl⟩

/-! ## Claim C7: wrapping is on by default and opt-out -/

/-- C7: the configuration defaults to wrapping (absent argument, or absent /
nullish usePipeError field, resolve to true; an explicit Boolean is taken
as given), and in pipe.ts a step failure surfaces wrapped in a PipeError
exactly when the resolved flag is true, as the raw thrown error when the
caller passed false — in both the synchronous and asynchronous variants. -/
theorem C7_wrap_opt_out :
    PipeTs.setConfig none = true
    ∧ PipeTs.setConfig (some none) = true
    ∧ (∀ b, PipeTs.setConfig (some (some b)) = b)
    ∧ (∀ (v : JSVal) (cfg : Option (Option Bool)) (s : Step) (e : JSVal),
        s.fn v = .error e →
        PipeTs.PipeSync.next (PipeTs.pipeSync v cfg) s
          = .error (if PipeTs.setConfig cfg then
              mkPipeError e [stepLabel s.nm] PipeTs.engineStackDefault
            else e))
    ∧ (∀ (v : JSVal) (cfg : Option (Option Bool)) (s : Step) (e : JSVal),
        s.fn v = .error e →
        (PipeTs.Pipe.next (PipeTs.pipe v cfg) s).value
          = .error (if PipeTs.setConfig cfg then
              mkPipeError e [stepLabel s.nm] PipeTs.engineStackDefault
            else e)) := by
  refine ⟨rfl, rfl, fun b => rfl, ?_, ?_⟩
  · intro v cfg s e hf
    simp [PipeTs.PipeSync.next, PipeTs.pipeSync, hf]
  · intro v cfg s e hf
    simp [PipeTs.Pipe.next, PipeTs.pipe, hf]

/-- Witness for C7: with the option absent the failure surfaces wrapped;
with usePipeError false the raw error escapes unchanged. -/
theorem C7_witness :
    PipeTs.PipeSync.next (PipeTs.pipeSync (.num 1) none) stepThrowX
      = .error (if PipeTs.setConfig none then
          mkPipeError (.str "X") [stepLabel stepThrowX.nm] PipeTs.engineStackDefault
        else (.str "X"))
    ∧ PipeTs.PipeSync.next (PipeTs.pipeSync (.num 1) (some (some false))) stepThrowX
      = .error (if PipeTs.setConfig (some (some false)) then
          mkPipeError (.str "X") [stepLabel stepThrowX.nm] PipeTs.engineStackDefault
        else (.str "X")) :=
  ⟨C7_wrap_opt_out.2.2.2.1 (.num 1) none stepThrowX (.str "X") rfl,
   C7_wrap_opt_out.2.2.2.1 (.num 1) (some (some false)) stepThrowX (.str "X") rfl⟩

/-! ## Claim C10: wrapping a non-Error thrown value -/

/-- C10: the wrapper built from a thrown value that is not an Error instance
has the empty message, copies no properties, and leaves its stack exactly the
engine-assigned default (no execution-chain text attached); consequently two
different non-Error thrown values produce identical wrappers, so the original
thrown value is not recoverable from the wrapper. -/
theorem C10_non_error_wrapper (v v2 : JSVal) (hist hist2 : List String)
    (engineStack : Option String)
    (hv : isErrorVal v = false) (hv2 : isErrorVal v2 = false) :
    mkPipeError v hist engineStack = .err "" engineStack []
    ∧ mkPipeError v hist engineStack = mkPipeError v2 hist2 engineStack := by
  have h1 : mkPipeError v hist engineStack = .err "" engineStack [] := by
    cases v <;> first
      | rfl
      | simp [isErrorVal] at hv
  have h2 : mkPipeError v2 hist2 engineStack = .err "" engineStack [] := by
    cases v2 <;> first
      | rfl
      | simp [isErrorVal] at hv2
  exact ⟨h1, h2 ▸ h1⟩

/-- Witness for C10: wrapping the thrown string "oops" and the thrown plain
object {a: 1} gives the same bare wrapper. -/
theorem C10_witness :
    mkPipeError (.str "oops") ["f"] (some "stk") = .err "" (some "stk") []
    ∧ mkPipeError (.str "oops") ["f"] (some "stk")
        = mkPipeError (.obj [("a", .num 1)]) ["g"] (some "stk") :=
  C10_non_error_wrapper (.str "oops") (.obj [("a", .num 1)]) ["f"] ["g"] (some "stk") rfl rfl

/-! ## Claim C8: round-trip of custom error fields through the wrapper -/

/-- Lookup distributes over append when the key is present on the left. -/
theorem lookupField_append_left {l1 : List (String × JSVal)} {k : String} {w : JSVal}
    (h : lookupField l1 k = some w) (l2 : List (String × JSVal)) :
    lookupField (l1 ++ l2) k = some w := by
  induction l1 with
  | nil => simp [lookupField] at h
  | cons p rest ih =>
    obtain ⟨k', v'⟩ := p
    by_cases hk : k' = k
    · simp_all [lookupField]
    · simp_all [lookupField]

/-- Lookup skips an appended left part that does not contain the key. -/
theorem lookupField_append_right {l1 : List (String × JSVal)} {k : String}
    (h : lookupField l1 k = none) (l2 : List (String × JSVal)) :
    lookupField (l1 ++ l2) k = lookupField l2 k := by
  induction l1 with
  | nil => simp
  | cons p rest ih =>
    obtain ⟨k', v'⟩ := p
    by_cases hk : k' = k
    · simp_all [lookupField]
    · simp_all [lookupField]

/-- A field already copied is never overwritten by the rest of the loop. -/
theorem copyProps_keeps {k : String} {w : JSVal} :
    ∀ (fields acc : List (String × JSVal)), lookupField acc k = some w →
    lookupField (copyProps fields acc) k = some w := by
  intro fields
  induction fields with
  | nil => intro acc h; simpa [copyProps] using h
  | cons p rest ih =>
    intro acc h
    obtain ⟨k', v'⟩ := p
    by_cases hb : k' ∈ builtinPropNames
    · simpa [copyProps, hb] using ih acc h
    · by_cases ha : (lookupField acc k').isSome
      · simpa [copyProps, hb, ha] using ih acc h
      · simp only [copyProps, hb, ha, if_false, if_true, ite_false, ite_true]
        exact ih (acc ++ [(k', v')]) (lookupField_append_left h [(k', v')])

/-- The copy loop is lookup-transparent for keys that are not builtin wrapper
properties: looking the key up among the copied fields is looking it up on
the original. -/
theorem copyProps_lookup {k : String} (hk : k ∉ builtinPropNames) :
    ∀ (fields acc : List (String × JSVal)), lookupField acc k = none →
    lookupField (copyProps fields acc) k = lookupField fields k := by
  intro fields
  induction fields with
  | nil => intro acc h; simpa [copyProps, lookupField] using h
  | cons p rest ih =>
    intro acc h
    obtain ⟨k', v'⟩ := p
    by_cases hkk : k' = k
    · subst hkk
      have hb : k' ∉ builtinPropNames := hk
      have ha : (lookupField acc k').isSome = false := by simp [h]
      simp only [copyProps, hb, ha, if_false, ite_false, Bool.false_eq_true]
      have hacc : lookupField (acc ++ [(k', v')]) k' = some v' := by
        rw [lookupField_append_right h]
        simp [lookupField]
      rw [copyProps_keeps rest _ hacc]
      simp [lookupField]
    · by_cases hb : k' ∈ builtinPropNames
      · rw [show copyProps ((k', v') :: rest) acc = copyProps rest acc by
          simp [copyProps, hb]]
        rw [ih acc h]
        simp [lookupField, hkk]
      · by_cases ha : (lookupField acc k').isSome
        · rw [show copyProps ((k', v') :: rest) acc = copyProps rest acc by
            simp [copyProps, hb, ha]]
          rw [ih acc h]
          simp [lookupField, hkk]
        · rw [show copyProps ((k', v') :: rest) acc = copyProps rest (acc ++ [(k', v')]) by
            simp [copyProps, hb, ha]]
          have h2 : lookupField (acc ++ [(k', v')]) k = none := by
            rw [lookupField_append_right h]
            simp [lookupField, hkk]
          rw [ih _ h2]
          simp [lookupField, hkk]

/-- Under distinct keys, membership determines the lookup result. -/
theorem lookupField_of_mem {fields : List (String × JSVal)} {k : String} {u : JSVal}
    (hnodup : (fields.map Prod.fst).Nodup) (hmem : (k, u) ∈ fields) :
    lookupField fields k = some u := by
  induction fields with
  | nil => simp at hmem
  | cons p rest ih =>
    obtain ⟨k', v'⟩ := p
    simp only [List.map_cons, List.nodup_cons] at hnodup
    rcases List.mem_cons.mp hmem with h | h
    · injection h with hk hu
      subst hk; subst hu
      simp [lookupField]
    · have hk : k' ≠ k := by
        intro hkk
        exact hnodup.1 (hkk ▸ (List.mem_map.mpr ⟨(k, u), h, rfl⟩))
      simp [lookupField, hk, ih hnodup.2 h]

/-- C8 (amended): an Error subtype instance carrying extra own enumerable
fields round-trips those fields through the wrapper with identical values,
provided the field names are distinct and do not collide with a property the
freshly built wrapper already has (own message and stack, or prototype-chain
names such as name, constructor, toString); a colliding field fails the
!(key in this) guard and is dropped (see the counterexample). -/
theorem C8_field_roundtrip (m : String) (stk : Option String)
    (fields : List (String × JSVal)) (hist : List String) (engineStack : Option String)
    (k : String) (u : JSVal)
    (hnodup : (fields.map Prod.fst).Nodup)
    (hmem : (k, u) ∈ fields)
    (hk : k ∉ builtinPropNames) :
    getProp (.err m stk fields) k = u
    ∧ getProp (mkPipeError (.err m stk fields) hist engineStack) k = u := by
  have hmsg : k ≠ "message" := by
    intro h; exact hk (h ▸ (by simp [builtinPropNames]))
  have hstk : k ≠ "stack" := by
    intro h; exact hk (h ▸ (by simp [builtinPropNames]))
  have hlook : lookupField fields k = some u := lookupField_of_mem hnodup hmem
  constructor
  · simp [getProp, errGet, hmsg, hstk, hlook]
  · have hcopy : lookupField (copyProps fields []) k = some u := by
      rw [copyProps_lookup hk fields [] rfl]
      exact hlook
    simp [mkPipeError, getProp, errGet, hmsg, hstk, hcopy]

/-- Witness for C8: the custom field code = 42 survives wrapping. -/
theorem C8_witness :
    getProp (.err "boom" (some "Error: boom") [("code", .num 42)]) "code" = .num 42
    ∧ getProp (mkPipeError (.err "boom" (some "Error: boom") [("code", .num 42)])
        ["step1"] none) "code" = .num 42 :=
  C8_field_roundtrip "boom" (some "Error: boom") [("code", .num 42)] ["step1"] none
    "code" (.num 42) (by simp) (by simp) (by decide)

/-- Counterexample for C8 as stated: an Error subtype with the extra own
enumerable field name = "CustomError" (as a name class field produces) does
not round-trip — name is already reachable on the wrapper through
Error.prototype, so the in-guard skips the copy and the wrapper reports
"Error" instead. -/
theorem C8_counterexample :
    getProp customNameError "name" = .str "CustomError"
    ∧ getProp (mkPipeError customNameError ["step1"] none) "name" = .str "Error"
    ∧ getProp (mkPipeError customNameError ["step1"] none) "name"
        ≠ getProp customNameError "name" := by
  refine ⟨rfl, rfl, fun h => ?_⟩
  have h2 : (JSVal.str "Error") = .str "CustomError" := h
  simp at h2

/-! ## Claim C5: rewrapping of pass-through rejections in pipe.ts -/

/-- C5 (divergence witness): with wrapping enabled, a rejection produced by
failStep is wrapped once there, but the subsequent next(saveToDB) — whose
function is never invoked — wraps the passing rejection AGAIN, because the
catch in pipe.ts Pipe.next is attached behind the then and therefore also
receives pass-through rejections.  The final rejection is a nested wrapper
whose execution chain marks saveToDB, not the failing step, contradicting
the claim (and the repository's own error-handling documentation, which
shows the chain still marking the failing step after later steps). -/
theorem C5_passthrough_rewrapped :
    (PipeTs.Pipe.next (PipeTs.Pipe.next (PipeTs.pipe (.num 1) none) failStep) saveToDB).value
      = .error (mkPipeError (mkPipeError boomError ["failStep"] PipeTs.engineStackDefault)
          ["failStep", "saveToDB"] PipeTs.engineStackDefault)
    ∧ (PipeTs.Pipe.next (PipeTs.Pipe.next (PipeTs.pipe (.num 1) none) failStep) saveToDB).value
      ≠ .error (mkPipeError boomError ["failStep"] PipeTs.engineStackDefault) := by
  refine ⟨rfl, fun h => ?_⟩
  have hw : mkPipeError (mkPipeError boomError ["failStep"] PipeTs.engineStackDefault)
      ["failStep", "saveToDB"] PipeTs.engineStackDefault
      = mkPipeError boomError ["failStep"] PipeTs.engineStackDefault := by
    injection h
  exact absurd (congrArg stackOf hw) (by decide)

/-! ## Claim C6: shape of the formatted trace -/

/-- setLastJS walks past the head while the tail is non-empty. -/
theorem setLastJS_cons (x : String) (l : List String) (s : String) (hl : l ≠ []) :
    setLastJS (x :: l) s = x :: setLastJS l s := by
  cases l with
  | nil => exact absurd rfl hl
  | cons y r => rfl

/-- The indexed map of a non-empty list is non-empty. -/
theorem mapIdxFrom_ne_nil (b : Nat) (f : Nat → String → String) (l : List String)
    (hl : l ≠ []) : mapIdxFrom b f l ≠ [] := by
  cases l with
  | nil => exact absurd rfl hl
  | cons x r => simp [mapIdxFrom]

/-- Rebasing the numbering: mapping positions c + i + 1 from start index b is
mapping positions i + 1 from start index c + b. -/
theorem mapIdxFrom_numbered_shift (c : Nat) : ∀ (l : List String) (b : Nat),
    mapIdxFrom b (fun i m => numberedEntry (c + i + 1) m) l
      = mapIdxFrom (c + b) (fun i m => numberedEntry (i + 1) m) l := by
  intro l
  induction l with
  | nil => intro b; rfl
  | cons x rest ih =>
    intro b
    simp only [mapIdxFrom, ih (b + 1)]
    rfl

/-- Dropping from an indexed map is the indexed map of the drop, rebased. -/
theorem mapIdxFrom_drop (f : Nat → String → String) : ∀ (l : List String) (j b : Nat),
    (mapIdxFrom b f l).drop j = mapIdxFrom (b + j) f (l.drop j) := by
  intro l
  induction l with
  | nil => intro j b; simp [mapIdxFrom]
  | cons x rest ih =>
    intro j b
    cases j with
    | zero => simp [mapIdxFrom]
    | succ j2 =>
      simp only [mapIdxFrom, List.drop_succ_cons]
      rw [ih j2 (b + 1)]
      congr 1
      omega

/-- Dropping strictly fewer elements than the length preserves the last. -/
theorem getLast_drop_eq : ∀ (l : List String) (j : Nat), j < l.length →
    (l.drop j).getLast? = l.getLast? := by
  intro l
  induction l with
  | nil => intro j hj; simp at hj
  | cons x rest ih =>
    intro j hj
    cases j with
    | zero => rfl
    | succ j2 =>
      have hj2 : j2 < rest.length := by simpa using hj
      simp only [List.drop_succ_cons]
      rw [ih j2 hj2]
      cases rest with
      | nil => simp at hj2
      | cons y r => rfl

/-- Writing the failure entry over the last slot of a numbered rendering of
a non-empty list yields the list rendered with each entry numbered at its
true position and only the final entry replaced by the failure marker. -/
theorem setLast_mapIdxFrom (K : Nat) : ∀ (l : List String) (b : Nat) (w : String),
    l.getLast? = some w → b + l.length = K →
    setLastJS (mapIdxFrom b (fun i m => numberedEntry (i + 1) m) l) (failureEntry K w)
      = mapIdxFrom b
          (fun i m => if i + 1 = K then failureEntry K m else numberedEntry (i + 1) m) l := by
  intro l
  induction l with
  | nil => intro b w hw _; simp [List.getLast?] at hw
  | cons x rest ih =>
    intro b w hw hK
    cases rest with
    | nil =>
      have hx : w = x := by
        simp [List.getLast?] at hw
        exact hw.symm
      subst hx
      have hb : b + 1 = K := by simpa using hK
      simp [mapIdxFrom, setLastJS, hb]
    | cons y r =>
      have hlast : (y :: r).getLast? = some w := by
        rw [List.getLast?_cons_cons] at hw
        exact hw
      have hlen : (b + 1) + (y :: r).length = K := by
        simp only [List.length_cons] at hK ⊢
        omega
      have hne : mapIdxFrom (b + 1) (fun i m => numberedEntry (i + 1) m) (y :: r) ≠ [] :=
        mapIdxFrom_ne_nil _ _ _ (by simp)
      have hblt : b + 1 ≠ K := by
        simp only [List.length_cons] at hlen
        omega
      rw [show mapIdxFrom b (fun i m => numberedEntry (i + 1) m) (x :: y :: r)
          = numberedEntry (b + 1) x ::
            mapIdxFrom (b + 1) (fun i m => numberedEntry (i + 1) m) (y :: r) from rfl]
      rw [setLastJS_cons _ _ _ hne]
      rw [ih (b + 1) w hlast hlen]
      simp only [mapIdxFrom, if_neg hblt]

/-- C6: for every non-empty history whose last entry is the failing step, the
formatted trace equals the claimed rendering: all entries numbered at their
true 1-based positions with the final entry marked as the failure point, and,
when the history exceeds 3 entries, an omitted-count marker for the earlier
entries followed by the last three entries with their true positions. -/
theorem C6_trace_format (history : List String) (h : history ≠ []) :
    formatEnhancedErrorMsg history = formatTraceSpec history := by
  obtain ⟨w, hw⟩ := Option.isSome_iff_exists.mp (List.getLast?_isSome.mpr h)
  by_cases h3 : history.length > 3
  · have hdne : history.drop (history.length - 3) ≠ [] := by
      have hlen3 : (history.drop (history.length - 3)).length = 3 := by
        rw [List.length_drop]; omega
      intro hnil
      rw [hnil] at hlen3
      simp at hlen3
    have hlastd : (history.drop (history.length - 3)).getLast? = some w := by
      rw [getLast_drop_eq history (history.length - 3) (by omega)]
      exact hw
    simp only [formatEnhancedErrorMsg, formatTraceSpec, hw, Option.getD_some]
    rw [if_pos h3, if_pos h3]
    rw [setLastJS_cons _ _ _ (mapIdxFrom_ne_nil _ _ _ hdne)]
    rw [mapIdxFrom_numbered_shift (history.length - 3) (history.drop (history.length - 3)) 0]
    rw [Nat.add_zero]
    rw [setLast_mapIdxFrom history.length (history.drop (history.length - 3))
      (history.length - 3) w hlastd (by rw [List.length_drop]; omega)]
    rw [mapIdxFrom_drop _ history (history.length - 3) 0]
    rw [Nat.zero_add]
  · simp only [formatEnhancedErrorMsg, formatTraceSpec, hw, Option.getD_some]
    rw [if_neg h3, if_neg h3]
    rw [setLast_mapIdxFrom history.length history 0 w hw (Nat.zero_add _)]

/-- Witness for C6 at the five-step history of the repository's own test:
the trace compresses to an omitted-count marker plus the last three entries
with the fifth marked as the failure. -/
theorem C6_witness :
    formatEnhancedErrorMsg ["A", "B", "C", "D", "E"]
      = formatTraceSpec ["A", "B", "C", "D", "E"] :=
  C6_trace_format ["A", "B", "C", "D", "E"] (by decide)
